import Mathlib

/-!
Verification development for the SavingsCalculator library
(SavingsCalculator.py).  The Python source defines deposit_and_invest,
time_to_target, pension_payment and mortgage_vs_rent; the definitions
below embed the first three over the real numbers.  Python exceptions
(ZeroDivisionError, the ValueError raised by math.log on a nonpositive
argument, the IOError raised by the shape validation, the IndexError
raised by ages[-1] on an empty list, and the NameError raised when the
loop variable t is read after a loop whose range was empty) are embedded
as Except values.
-/

/-- Exceptions the Python functions can raise, as observable outcomes. -/
inductive CalcErr where
  | divisionUndefined
  | logUndefined
  | shapeMismatch
  | indexError
  | unboundVariable
  deriving DecidableEq

/-- Result of time_to_target: either a finite number of years or the
math.inf sentinel the code assigns when it decides the target is
unreachable. -/
inductive TTVal where
  | finite : ℝ → TTVal
  | inf : TTVal

/-- The salaries argument of pension_payment is dynamically typed in
Python: either a bare scalar or a list of salaries. -/
inductive SalariesArg where
  | scalar : ℝ → SalariesArg
  | list : List ℝ → SalariesArg

noncomputable section

/-- Value computed by deposit_and_invest when annual_return is nonzero:
with annual_deposit = 12*monthly_deposit and
A = x0 + annual_deposit/annual_return, the result is
A * exp(annual_return*T) - annual_deposit/annual_return. -/
def depPure (x0 monthly_deposit annual_return T : ℝ) : ℝ :=
  (x0 + 12 * monthly_deposit / annual_return) * Real.exp (annual_return * T)
    - 12 * monthly_deposit / annual_return

/-- deposit_and_invest(x0, monthly_deposit, annual_return, T): closed-form
growth projection; dividing by annual_return = 0 raises ZeroDivisionError
in Python.  The verbose printing does not affect the returned value. -/
def deposit_and_invest (x0 monthly_deposit annual_return T : ℝ) :
    Except CalcErr ℝ :=
  if annual_return = 0 then .error .divisionUndefined
  else .ok (depPure x0 monthly_deposit annual_return T)

/-- The year-by-year loop of time_to_target, started at balance x and
target y: the index of the first year at which x >= y, when it occurs
within the given number of iterations, else none.  Each year the balance
advances by deposit_and_invest with the given deposit and rate, the
target by deposit_and_invest with zero deposit and the target rate. -/
def ttIter (monthly_deposit annual_return target_annual_return : ℝ) :
    ℕ → ℝ → ℝ → Option ℕ
  | 0, _, _ => none
  | n + 1, x, y =>
    if y ≤ x then some 0
    else
      (ttIter monthly_deposit annual_return target_annual_return n
        (depPure x monthly_deposit annual_return 1)
        (depPure y 0 target_annual_return 1)).map (· + 1)

/-- time_to_target(target, x0, monthly_deposit, annual_return,
target_annual_return, Tmax).  Line 37 of the source divides by
annual_return before any branch, so a zero annual_return fails on both
paths.  The analytic branch divides by A and applies math.log; the
numeric branch runs the year loop, after which the source checks
`t == Tmax-1` (overwriting T with math.inf also when the first crossing
happened exactly at year Tmax-1), and reading t after a loop over an
empty range(Tmax) raises NameError. -/
def time_to_target (target x0 monthly_deposit annual_return
    target_annual_return : ℝ) (Tmax : ℤ) : Except CalcErr TTVal :=
  if annual_return = 0 then .error .divisionUndefined
  else
    if target_annual_return = 0 then
      if x0 + 12 * monthly_deposit / annual_return = 0 then
        .error .divisionUndefined
      else if (target + 12 * monthly_deposit / annual_return) /
          (x0 + 12 * monthly_deposit / annual_return) ≤ 0 then
        .error .logUndefined
      else
        .ok (.finite (Real.log ((target + 12 * monthly_deposit / annual_return)
          / (x0 + 12 * monthly_deposit / annual_return)) / annual_return))
    else
      if Tmax ≤ 0 then .error .unboundVariable
      else
        match ttIter monthly_deposit annual_return target_annual_return
            Tmax.toNat x0 target with
        | some t => if (t : ℤ) = Tmax - 1 then .ok .inf else .ok (.finite (t : ℝ))
        | none => .ok .inf

/-- months_factor as resolved by pension_payment from death_factor and
the last age: a death_factor below 120 is read as a death age. -/
def monthsFactorOf (death_factor : ℝ) (lastAge : ℤ) : ℝ :=
  if death_factor < 120 then 12 * (death_factor - (lastAge : ℝ))
  else death_factor

/-- zip(ages[:-1], ages[1:], salaries) as a list of triples. -/
def segTriples (ages : List ℤ) (salaries : List ℝ) :
    List (ℤ × ℤ × ℝ) :=
  ((ages.zip ages.tail).zip salaries).map fun p => (p.1.1, p.1.2, p.2)

/-- The simulation loop of pension_payment: fold deposit_and_invest over
the age segments, threading the balance, with the source's monthly
deposit formula salary*(worker+company+compensation)/100*(1-cost/100). -/
def runSegments (annual_return worker_deposit company_deposit compensation
    deposit_cost : ℝ) : List (ℤ × ℤ × ℝ) → ℝ → Except CalcErr ℝ
  | [], s => .ok s
  | (ti, tf, salary) :: rest, s =>
    (deposit_and_invest s
        (salary * (worker_deposit + company_deposit + compensation) / 100
          * (1 - deposit_cost / 100))
        annual_return ((tf : ℝ) - (ti : ℝ))).bind
      (runSegments annual_return worker_deposit company_deposit compensation
        deposit_cost rest)

/-- pension_payment(initial_sum, ages, salaries, death_factor, ...).
The source reads ages[-1] first (IndexError on an empty list), wraps a
scalar salaries argument into a one-element list, validates
len(salaries) == len(ages)-1 (IOError otherwise), resolves the months
factor, simulates the savings with net rate (annual_return -
annual_cost)/100, and divides the final balance by months_factor
(ZeroDivisionError when that factor is zero). -/
def pension_payment (initial_sum : ℝ) (ages : List ℤ)
    (salaries : SalariesArg) (death_factor worker_deposit company_deposit
    compensation deposit_cost annual_cost annual_return : ℝ) :
    Except CalcErr ℝ :=
  match ages.getLast? with
  | none => .error .indexError
  | some lastAge =>
    let sal : List ℝ :=
      match salaries with
      | .scalar s => [s]
      | .list l => l
    if (sal.length : ℤ) ≠ (ages.length : ℤ) - 1 then .error .shapeMismatch
    else
      (runSegments ((annual_return - annual_cost) / 100) worker_deposit
          company_deposit compensation deposit_cost (segTriples ages sal)
          initial_sum).bind
        fun s =>
          if monthsFactorOf death_factor lastAge = 0 then
            .error .divisionUndefined
          else .ok (s / monthsFactorOf death_factor lastAge)

/-- Spec-side restatement of the pension walk, for the refinement claim:
fold the closed-form projection over (startAge, endAge, salary) triples
in order, with monthly deposit salary*(sum of contribution rates)/100*
(1 - friction/100), purely and with no exception plumbing. -/
def specPensionBalance (rate worker_deposit company_deposit compensation
    deposit_cost : ℝ) : List (ℤ × ℤ × ℝ) → ℝ → ℝ
  | [], s => s
  | (ti, tf, salary) :: rest, s =>
    specPensionBalance rate worker_deposit company_deposit compensation
      deposit_cost rest
      (depPure s
        (salary * (worker_deposit + company_deposit + compensation) / 100
          * (1 - deposit_cost / 100))
        rate ((tf : ℝ) - (ti : ℝ)))

end

/-- Evaluation of the analytic branch of time_to_target when the rate is
nonzero, A is nonzero and the argument of the logarithm is positive. -/
theorem time_to_target_analytic_eq (target x0 d r : ℝ) (Tmax : ℤ)
    (hr : r ≠ 0) (hA : x0 + 12 * d / r ≠ 0)
    (harg : 0 < (target + 12 * d / r) / (x0 + 12 * d / r)) :
    time_to_target target x0 d r 0 Tmax =
      .ok (.finite (Real.log ((target + 12 * d / r) / (x0 + 12 * d / r))
        / r)) := by
  simp only [time_to_target, if_neg hr, if_neg hA, if_neg (not_le.mpr harg)]
  rw [if_pos trivial]

/-- Round-trip evaluation of the closed-form projection at the analytic
solution time: follows from exp (log z) = z. -/
theorem depPure_roundtrip (target x0 d r : ℝ) (hr : r ≠ 0)
    (harg : 0 < (target + 12 * d / r) / (x0 + 12 * d / r)) :
    depPure x0 d r
      (Real.log ((target + 12 * d / r) / (x0 + 12 * d / r)) / r) = target := by
  have hA : x0 + 12 * d / r ≠ 0 := by
    intro h
    rw [h, div_zero] at harg
    exact lt_irrefl 0 harg
  have hcancel : r * (Real.log ((target + 12 * d / r) / (x0 + 12 * d / r)) / r)
      = Real.log ((target + 12 * d / r) / (x0 + 12 * d / r)) := by
    field_simp
  rw [depPure, hcancel, Real.exp_log harg, mul_comm,
    div_mul_cancel₀ _ hA]
  ring

/-- C5: with annualGrowthRate exactly 0, deposit_and_invest fails with a
division-undefined error, and time_to_target fails with a
division-undefined error for every targetGrowthRate, i.e. on the analytic
path and on the iterative path alike (line 37 divides by annual_return
before either branch is taken). -/
theorem zero_growth_rate_division_error (x0 d T target tr : ℝ) (Tmax : ℤ) :
    deposit_and_invest x0 d 0 T = .error .divisionUndefined ∧
    time_to_target target x0 d 0 tr Tmax = .error .divisionUndefined := by
  constructor
  · simp [deposit_and_invest]
  · simp [time_to_target]

/-- C10: when targetGrowthRate is nonzero and maxIterations is at most 0
(and the call survives line 37, i.e. annualGrowthRate is nonzero), the
year loop body never runs and reading the loop variable afterwards fails
with an unbound-variable (NameError) outcome rather than returning a
number or the sentinel. -/
theorem time_to_target_empty_loop_unbound (target x0 d r tr : ℝ)
    (Tmax : ℤ) (hr : r ≠ 0) (htr : tr ≠ 0) (hT : Tmax ≤ 0) :
    time_to_target target x0 d r tr Tmax = .error .unboundVariable := by
  simp only [time_to_target, if_neg hr, if_neg htr, if_pos hT]

/-- Witness for C10 at target 0, x0 0, deposit 0, rate 1, target rate 1,
Tmax 0. -/
theorem time_to_target_empty_loop_unbound_witness :
    time_to_target 0 0 0 1 1 0 = .error .unboundVariable :=
  time_to_target_empty_loop_unbound 0 0 0 1 1 0 (by norm_num) (by norm_num)
    (by norm_num)

/-- C1 (code bug): at target 0, x0 1, deposit 0, rate 1, target rate 1,
Tmax 1, the balance already satisfies x >= y at year t = 0 (the loop
records the crossing at index 0), yet because the crossing year equals
Tmax-1 the `if t == Tmax-1` check after the loop overwrites the answer
with math.inf, so the call reports the target unreachable although it is
reached at year 0. -/
theorem time_to_target_last_year_crossing_bug :
    ttIter 0 1 1 1 1 0 = some 0 ∧
    time_to_target 0 1 0 1 1 1 = .ok TTVal.inf := by
  constructor
  · simp [ttIter]
  · simp [time_to_target, ttIter]

/-- C4: for every static target reachable in the growth direction (the
logarithm's argument positive) and nonzero rate, projecting the balance
forward by the solved time lands exactly on the target: real-arithmetic
round-trip inversion of deposit_and_invest by time_to_target. -/
theorem time_to_target_roundtrip (target x0 d r : ℝ) (Tmax : ℤ)
    (hr : r ≠ 0) (harg : 0 < (target + 12 * d / r) / (x0 + 12 * d / r)) :
    ∃ T : ℝ, time_to_target target x0 d r 0 Tmax = .ok (.finite T) ∧
      deposit_and_invest x0 d r T = .ok target := by
  have hA : x0 + 12 * d / r ≠ 0 := by
    intro h
    rw [h, div_zero] at harg
    exact lt_irrefl 0 harg
  refine ⟨_, time_to_target_analytic_eq target x0 d r Tmax hr hA harg, ?_⟩
  rw [deposit_and_invest, if_neg hr, depPure_roundtrip target x0 d r hr harg]

/-- Witness for C4 at target 2, x0 1, deposit 0, rate 1. -/
theorem time_to_target_roundtrip_witness :
    ∃ T : ℝ, time_to_target 2 1 0 1 0 1000 = .ok (.finite T) ∧
      deposit_and_invest 1 0 1 T = .ok 2 :=
  time_to_target_roundtrip 2 1 0 1 1000 (by norm_num) (by norm_num)

/-- C3 counterexample: with target 1 already at or below the initial
balance 2, zero deposit and the negative rate -1, the analytic path
returns log 2, a strictly positive time, refuting the claim that the
analytic value is always at most 0 when target is at most the initial
balance (with a negative rate the balance decays onto the target at a
positive time). -/
theorem time_to_target_already_reached_cex :
    time_to_target 1 2 0 (-1) 0 1000 = .ok (.finite (Real.log 2)) ∧
    0 < Real.log 2 := by
  constructor
  · have h := time_to_target_analytic_eq 1 2 0 (-1) 1000 (by norm_num)
      (by norm_num) (by norm_num)
    rw [h]
    have harg : ((1 : ℝ) + 12 * 0 / (-1)) / (2 + 12 * 0 / (-1)) = 2⁻¹ := by
      norm_num
    rw [harg, Real.log_inv]
    norm_num
  · exact Real.log_pos (by norm_num)

/-- C3 amended: if target ≤ x0 at t = 0, the iterative path returns year
0 provided maxIterations is at least 2 (with exactly 1 iteration the
post-loop `t == Tmax-1` check overwrites the answer with math.inf, the
code bug of C1); the analytic path returns its raw value unmodified, and
that value is at most 0 provided the balance growth rate is positive and
both A = x0 + 12d/r and target + 12d/r are positive (with a negative
rate the analytic value can be strictly positive). -/
theorem time_to_target_already_reached_amended (target x0 d r tr : ℝ)
    (Tmax : ℤ) (h : target ≤ x0) :
    (tr ≠ 0 → r ≠ 0 → 2 ≤ Tmax →
      time_to_target target x0 d r tr Tmax = .ok (.finite 0)) ∧
    (0 < r → 0 < x0 + 12 * d / r → 0 < target + 12 * d / r →
      ∃ T : ℝ, time_to_target target x0 d r 0 Tmax = .ok (.finite T) ∧
        T ≤ 0) := by
  constructor
  · intro htr hrr hT
    simp only [time_to_target, if_neg hrr, if_neg htr,
      if_neg (not_le.mpr (by omega : (0 : ℤ) < Tmax))]
    obtain ⟨n, hn⟩ : ∃ n, Tmax.toNat = n + 1 :=
      ⟨Tmax.toNat - 1, by omega⟩
    rw [hn]
    simp only [ttIter, if_pos h]
    have hne : ¬(0 : ℤ) = Tmax - 1 := by omega
    simp [hne]
  · intro hr0 hA hN
    have hA' : x0 + 12 * d / r ≠ 0 := ne_of_gt hA
    have harg : 0 < (target + 12 * d / r) / (x0 + 12 * d / r) :=
      div_pos hN hA
    refine ⟨_, time_to_target_analytic_eq target x0 d r Tmax
      (ne_of_gt hr0) hA' harg, ?_⟩
    have harg1 : (target + 12 * d / r) / (x0 + 12 * d / r) ≤ 1 := by
      rw [div_le_one hA]
      linarith
    have hlog : Real.log ((target + 12 * d / r) / (x0 + 12 * d / r)) ≤ 0 :=
      Real.log_nonpos (le_of_lt harg) harg1
    exact div_nonpos_of_nonpos_of_nonneg hlog (le_of_lt hr0)

/-- Witness for the amended C3 at target 1, x0 2, deposit 0, rate 1,
with target rate 1 and Tmax 2 on the iterative side. -/
theorem time_to_target_already_reached_witness :
    time_to_target 1 2 0 1 1 2 = .ok (.finite 0) ∧
    (∃ T : ℝ, time_to_target 1 2 0 1 0 2 = .ok (.finite T) ∧ T ≤ 0) := by
  have h := time_to_target_already_reached_amended 1 2 0 1 1 2 (by norm_num)
  exact ⟨h.1 (by norm_num) (by norm_num) (by norm_num),
    h.2 (by norm_num) (by norm_num) (by norm_num)⟩

/-- The segment fold of pension_payment never raises once the net rate is
nonzero, and equals the pure spec-side fold. -/
theorem runSegments_eq_spec (r w c comp dc : ℝ) (hr : r ≠ 0) :
    ∀ (l : List (ℤ × ℤ × ℝ)) (s : ℝ),
      runSegments r w c comp dc l s =
        .ok (specPensionBalance r w c comp dc l s) := by
  intro l
  induction l with
  | nil => intro s; rfl
  | cons head tail ih =>
    intro s
    obtain ⟨ti, tf, salary⟩ := head
    simp only [runSegments, specPensionBalance, deposit_and_invest,
      if_neg hr, Except.bind]
    exact ih _

/-- C2: for a valid pension input (salary count equal to age count minus
one, with a nonempty age list, a nonzero net rate and a nonzero resolved
months factor), pension_payment returns exactly the spec-side value: the
balance obtained by folding the closed-form projection over consecutive
(startAge, endAge, salary) triples with net rate (annual_return -
annual_cost)/100 and monthly deposit salary*(worker+company+
compensation)/100*(1 - deposit_cost/100), divided by the resolved payout
divisor in months. -/
theorem pension_payment_refines_spec_walk (init df w c comp dc ac ar : ℝ)
    (ages : List ℤ) (sal : List ℝ) (la : ℤ)
    (hla : ages.getLast? = some la)
    (hlen : (sal.length : ℤ) = (ages.length : ℤ) - 1)
    (hr : (ar - ac) / 100 ≠ 0)
    (hmf : monthsFactorOf df la ≠ 0) :
    pension_payment init ages (.list sal) df w c comp dc ac ar =
      .ok (specPensionBalance ((ar - ac) / 100) w c comp dc
        (segTriples ages sal) init / monthsFactorOf df la) := by
  simp only [pension_payment, hla, if_neg (not_not_intro hlen),
    runSegments_eq_spec _ _ _ _ _ hr, Except.bind, if_neg hmf]

/-- Witness for C2 at initial sum 1, ages [30, 62], salaries [1000] and
the source's default parameters. -/
theorem pension_payment_refines_spec_walk_witness :
    pension_payment 1 [30, 62] (.list [1000]) 85 6 6.5 6 1.5 0.01 4 =
      .ok (specPensionBalance ((4 - 0.01) / 100) 6 6.5 6 1.5
        (segTriples [30, 62] [1000]) 1 / monthsFactorOf 85 62) :=
  pension_payment_refines_spec_walk 1 85 6 6.5 6 1.5 0.01 4 [30, 62]
    [1000] 62 (by simp) (by norm_num) (by norm_num)
    (by rw [monthsFactorOf]; norm_num)

/-- C6: whenever the salary list's length differs from the number of
ages minus one, pension_payment fails with an error before any balance
computation (IOError from the shape validation on a nonempty age list,
IndexError from reading ages[-1] on an empty one); it never truncates or
zips the mismatched sequences. -/
theorem pension_payment_shape_mismatch (init df w c comp dc ac ar : ℝ)
    (ages : List ℤ) (sal : List ℝ)
    (h : (sal.length : ℤ) ≠ (ages.length : ℤ) - 1) :
    ∃ e, pension_payment init ages (.list sal) df w c comp dc ac ar =
      .error e ∧ (ages ≠ [] → e = CalcErr.shapeMismatch) := by
  cases hla : ages.getLast? with
  | none =>
    refine ⟨.indexError, ?_, ?_⟩
    · simp [pension_payment, hla]
    · intro hne
      exact absurd (List.getLast?_eq_none_iff.mp hla) hne
  | some la =>
    refine ⟨.shapeMismatch, ?_, fun _ => rfl⟩
    simp only [pension_payment, hla, if_pos h]

/-- Witness for C6 at the spec's shape-validation scenario:
ages [30, 40, 67] with the single salary [5000]. -/
theorem pension_payment_shape_mismatch_witness :
    ∃ e, pension_payment 0 [30, 40, 67] (.list [5000]) 85 6 6.5 6 1.5
      0.01 4 = .error e ∧
      (([30, 40, 67] : List ℤ) ≠ [] → e = CalcErr.shapeMismatch) :=
  pension_payment_shape_mismatch 0 85 6 6.5 6 1.5 0.01 4 [30, 40, 67]
    [5000] (by norm_num)

/-- C8: a scalar salaries argument is silently wrapped into a
one-element list before the shape validation, so pension_payment on a
scalar behaves exactly like pension_payment on the one-element list; in
particular with exactly two ages the scalar call passes validation and
returns a computed payment (a single-segment timeline) instead of being
rejected. -/
theorem pension_payment_scalar_salary (init s df w c comp dc ac ar : ℝ)
    (ages : List ℤ) (a b : ℤ)
    (hr : (ar - ac) / 100 ≠ 0) (hmf : monthsFactorOf df b ≠ 0) :
    pension_payment init ages (.scalar s) df w c comp dc ac ar =
      pension_payment init ages (.list [s]) df w c comp dc ac ar ∧
    ∃ p : ℝ, pension_payment init [a, b] (.scalar s) df w c comp dc ac ar
      = .ok p := by
  constructor
  · rfl
  · have hla : ([a, b] : List ℤ).getLast? = some b := by simp
    refine ⟨specPensionBalance ((ar - ac) / 100) w c comp dc
      (segTriples [a, b] [s]) init / monthsFactorOf df b, ?_⟩
    simp only [pension_payment, hla,
      if_neg (not_not_intro (by norm_num : (([s] : List ℝ).length : ℤ) =
        (([a, b] : List ℤ).length : ℤ) - 1)),
      runSegments_eq_spec _ _ _ _ _ hr, Except.bind, if_neg hmf]

/-- Witness for C8 at salary 5000, ages [40, 67], the source's default
parameters and initial sum 0. -/
theorem pension_payment_scalar_salary_witness :
    pension_payment 0 [40, 67] (.scalar 5000) 85 6 6.5 6 1.5 0.01 4 =
      pension_payment 0 [40, 67] (.list [5000]) 85 6 6.5 6 1.5 0.01 4 ∧
    ∃ p : ℝ, pension_payment 0 [40, 67] (.scalar 5000) 85 6 6.5 6 1.5
      0.01 4 = .ok p :=
  pension_payment_scalar_salary 0 5000 85 6 6.5 6 1.5 0.01 4 [40, 67]
    40 67 (by norm_num) (by rw [monthsFactorOf]; norm_num)

/-- C9: a death_factor below 120 is read as a death age with divisor
12*(death_factor - ages[-1]); when the death_factor equals the final age
that divisor is zero and the final division fails with a
division-by-zero error, and when it is below the final age (with a
positive accumulated balance) a strictly negative monthly payment is
returned: pension_payment never guards against a non-positive divisor. -/
theorem pension_payment_nonpositive_divisor (init df w c comp dc ac ar
    s : ℝ) (ages : List ℤ) (sal : List ℝ) (la : ℤ)
    (hla : ages.getLast? = some la)
    (hlen : (sal.length : ℤ) = (ages.length : ℤ) - 1)
    (hrun : runSegments ((ar - ac) / 100) w c comp dc
      (segTriples ages sal) init = .ok s)
    (hdf : df < (la : ℝ)) (hla120 : (la : ℝ) < 120) (hs : 0 < s) :
    monthsFactorOf df la = 12 * (df - (la : ℝ)) ∧
    pension_payment init ages (.list sal) (la : ℝ) w c comp dc ac ar =
      .error .divisionUndefined ∧
    ∃ p : ℝ, pension_payment init ages (.list sal) df w c comp dc ac ar =
      .ok p ∧ p < 0 := by
  have hdf120 : df < 120 := lt_trans hdf hla120
  have hmf_df : monthsFactorOf df la = 12 * (df - (la : ℝ)) := by
    rw [monthsFactorOf, if_pos hdf120]
  refine ⟨hmf_df, ?_, ?_⟩
  · have hmf0 : monthsFactorOf (la : ℝ) la = 0 := by
      rw [monthsFactorOf, if_pos hla120]
      ring
    simp only [pension_payment, hla, if_neg (not_not_intro hlen), hrun,
      Except.bind, hmf0]
    rw [if_pos trivial]
  · have hmfneg : monthsFactorOf df la < 0 := by
      rw [hmf_df]
      nlinarith
    refine ⟨s / monthsFactorOf df la, ?_,
      div_neg_of_pos_of_neg hs hmfneg⟩
    simp only [pension_payment, hla, if_neg (not_not_intro hlen), hrun,
      Except.bind, if_neg (ne_of_lt hmfneg)]

/-- Strict antitonicity of log((t+c)/(x+c)) in c, for x < t and both
denominators positive. -/
theorem log_ratio_lt (t x c1 c2 : ℝ) (hx1 : 0 < x + c1) (hx2 : 0 < x + c2)
    (ht : x < t) (hc : c1 < c2) :
    Real.log ((t + c2) / (x + c2)) < Real.log ((t + c1) / (x + c1)) := by
  have ht1 : 0 < t + c1 := by linarith
  have ht2 : 0 < t + c2 := by linarith
  have key : (t + c2) * (x + c1) < (t + c1) * (x + c2) := by nlinarith
  have hlog := Real.log_lt_log (mul_pos ht2 hx1) key
  rw [Real.log_mul (ne_of_gt ht2) (ne_of_gt hx1),
    Real.log_mul (ne_of_gt ht1) (ne_of_gt hx2)] at hlog
  rw [Real.log_div (ne_of_gt ht2) (ne_of_gt hx2),
    Real.log_div (ne_of_gt ht1) (ne_of_gt hx1)]
  linarith

/-- Strict monotonicity of (exp w - 1)/w in cross-multiplied form:
for 0 < u < v, v*(exp u - 1) < u*(exp v - 1). -/
theorem exp_ratio_lt (u v : ℝ) (hu : 0 < u) (huv : u < v) :
    v * (Real.exp u - 1) < u * (Real.exp v - 1) := by
  have hEu := Real.exp_pos u
  have h1 : Real.exp u - 1 < u * Real.exp u := by
    have h2 := Real.add_one_lt_exp (neg_ne_zero.mpr (ne_of_gt hu))
    rw [Real.exp_neg] at h2
    have h3 := mul_lt_mul_of_pos_right h2 hEu
    rw [inv_mul_cancel₀ (ne_of_gt hEu)] at h3
    nlinarith
  have h3 : v - u < Real.exp (v - u) - 1 := by
    have := Real.add_one_lt_exp (ne_of_gt (sub_pos.mpr huv))
    linarith
  have hEv : Real.exp v = Real.exp u * Real.exp (v - u) := by
    rw [← Real.exp_add]
    ring_nf
  rw [hEv]
  nlinarith [mul_lt_mul_of_pos_left h3 (mul_pos hu hEu),
    mul_lt_mul_of_pos_left h1 (sub_pos.mpr huv)]

/-- With a positive initial balance, a higher positive growth rate gives
a strictly larger projected balance at every positive time, as long as
A = x0 + 12d/r is positive at the smaller rate. -/
theorem depPure_rate_lt (x0 d r1 r2 s : ℝ) (hx0 : 0 < x0) (hr1 : 0 < r1)
    (hr12 : r1 < r2) (hA1 : 0 < x0 + 12 * d / r1) (hs : 0 < s) :
    depPure x0 d r1 s < depPure x0 d r2 s := by
  have hr2 : 0 < r2 := lt_trans hr1 hr12
  set E1 := Real.exp (r1 * s) with hE1def
  set E2 := Real.exp (r2 * s) with hE2def
  have hE2gt : 1 < E2 := by
    rw [hE2def, show (1 : ℝ) = Real.exp 0 from Real.exp_zero.symm]
    exact Real.exp_lt_exp.mpr (mul_pos hr2 hs)
  have hq : r2 * (E1 - 1) < r1 * (E2 - 1) := by
    have h := exp_ratio_lt (r1 * s) (r2 * s) (mul_pos hr1 hs)
      (mul_lt_mul_of_pos_right hr12 hs)
    nlinarith [h, hs]
  have hk : -(x0 * r1) < 12 * d := by
    have hmul := mul_pos hr1 hA1
    have hexp : r1 * (x0 + 12 * d / r1) = r1 * x0 + 12 * d := by
      field_simp
      ring
    rw [hexp] at hmul
    linarith
  have hQ : 0 < r1 * (E2 - 1) - r2 * (E1 - 1) := by linarith
  have main : x0 * E1 * (r1 * r2) + 12 * d * ((E1 - 1) * r2) <
      x0 * E2 * (r1 * r2) + 12 * d * ((E2 - 1) * r1) := by
    nlinarith [mul_pos (show 0 < 12 * d + x0 * r1 by linarith) hQ,
      mul_pos (mul_pos hx0 hr1)
        (mul_pos (sub_pos.mpr hr12) (sub_pos.mpr hE2gt))]
  have hid : depPure x0 d r2 s - depPure x0 d r1 s =
      ((x0 * E2 * (r1 * r2) + 12 * d * ((E2 - 1) * r1)) -
        (x0 * E1 * (r1 * r2) + 12 * d * ((E1 - 1) * r2))) / (r1 * r2) := by
    rw [depPure, depPure, ← hE1def, ← hE2def,
      eq_div_iff (ne_of_gt (mul_pos hr1 hr2))]
    field_simp
    ring
  have hpos : 0 < depPure x0 d r2 s - depPure x0 d r1 s := by
    rw [hid]
    exact div_pos (by linarith) (mul_pos hr1 hr2)
  linarith

/-- With positive A = x0 + 12d/r and positive rate, the projected
balance is strictly increasing in elapsed time. -/
theorem depPure_time_lt (x0 d r s1 s2 : ℝ) (hA : 0 < x0 + 12 * d / r)
    (hr : 0 < r) (h : s1 < s2) :
    depPure x0 d r s1 < depPure x0 d r s2 := by
  rw [depPure, depPure]
  have hE := Real.exp_lt_exp.mpr (mul_lt_mul_of_pos_left h hr)
  have h2 := mul_lt_mul_of_pos_left hE hA
  linarith

/-- C7 counterexample: with target 2, x0 1, zero deposit, growing the
rate from -1 to 1 (both calls defined: the logarithm argument is 2 in
both) strictly increases the analytic answer from -log 2 to log 2, so
the analytic time is not strictly decreasing in the rate wherever both
compared calls are defined. -/
theorem time_to_target_monotone_cex :
    time_to_target 2 1 0 (-1) 0 1000 = .ok (.finite (-Real.log 2)) ∧
    time_to_target 2 1 0 1 0 1000 = .ok (.finite (Real.log 2)) ∧
    -Real.log 2 < Real.log 2 := by
  have hlogpos := Real.log_pos (by norm_num : (1 : ℝ) < 2)
  refine ⟨?_, ?_, by linarith⟩
  · have h := time_to_target_analytic_eq 2 1 0 (-1) 1000 (by norm_num)
      (by norm_num) (by norm_num)
    rw [h]
    have harg : ((2 : ℝ) + 12 * 0 / (-1)) / (1 + 12 * 0 / (-1)) = 2 := by
      norm_num
    rw [harg, show Real.log 2 / (-1 : ℝ) = -Real.log 2 by ring]
  · have h := time_to_target_analytic_eq 2 1 0 1 1000 (by norm_num)
      (by norm_num) (by norm_num)
    rw [h]
    have harg : ((2 : ℝ) + 12 * 0 / 1) / (1 + 12 * 0 / 1) = 2 := by
      norm_num
    rw [harg, div_one]

/-- C7 amended: on the analytic path with target above the initial
balance, the answer is strictly decreasing in the deposit whenever the
rate is nonzero and A = x0 + 12d/r is positive for both compared calls,
and strictly decreasing in the rate whenever both rates are positive,
the initial balance is positive, and A is positive at the smaller rate
(the counterexample shows monotonicity in the rate fails across sign
changes of the rate). -/
theorem time_to_target_analytic_monotone_amended
    (target x0 d d1 d2 r r1 r2 : ℝ) (Tmax : ℤ) (ht : x0 < target) :
    (r ≠ 0 → 0 < x0 + 12 * d1 / r → 0 < x0 + 12 * d2 / r → d1 < d2 →
      ∃ T1 T2 : ℝ,
        time_to_target target x0 d1 r 0 Tmax = .ok (.finite T1) ∧
        time_to_target target x0 d2 r 0 Tmax = .ok (.finite T2) ∧
        T2 < T1) ∧
    (0 < r1 → r1 < r2 → 0 < x0 → 0 < x0 + 12 * d / r1 →
      ∃ T1 T2 : ℝ,
        time_to_target target x0 d r1 0 Tmax = .ok (.finite T1) ∧
        time_to_target target x0 d r2 0 Tmax = .ok (.finite T2) ∧
        T2 < T1) := by
  constructor
  · intro hr hA1 hA2 hd
    have hN1 : 0 < target + 12 * d1 / r := by linarith
    have hN2 : 0 < target + 12 * d2 / r := by linarith
    refine ⟨_, _,
      time_to_target_analytic_eq target x0 d1 r Tmax hr (ne_of_gt hA1)
        (div_pos hN1 hA1),
      time_to_target_analytic_eq target x0 d2 r Tmax hr (ne_of_gt hA2)
        (div_pos hN2 hA2), ?_⟩
    rcases lt_or_gt_of_ne hr with hneg | hpos
    · have hc : 12 * d2 / r < 12 * d1 / r :=
        div_lt_div_of_neg_of_lt hneg (by linarith)
      have hlog := log_ratio_lt target x0 (12 * d2 / r) (12 * d1 / r)
        hA2 hA1 ht hc
      exact div_lt_div_of_neg_of_lt hneg hlog
    · have hc : 12 * d1 / r < 12 * d2 / r :=
        (div_lt_div_iff_of_pos_right hpos).mpr (by linarith)
      have hlog := log_ratio_lt target x0 (12 * d1 / r) (12 * d2 / r)
        hA1 hA2 ht hc
      exact (div_lt_div_iff_of_pos_right hpos).mpr hlog
  · intro hr1 hr12 hx0 hA1
    have hr2 : 0 < r2 := lt_trans hr1 hr12
    have hA2 : 0 < x0 + 12 * d / r2 := by
      rcases le_or_lt 0 d with hd | hd
      · have : 0 ≤ 12 * d / r2 := div_nonneg (by linarith) (le_of_lt hr2)
        linarith
      · have h12 : 12 * d / r1 < 12 * d / r2 := by
          rw [div_lt_div_iff₀ hr1 hr2]
          nlinarith
        linarith
    have hN1 : 0 < target + 12 * d / r1 := by linarith
    have hN2 : 0 < target + 12 * d / r2 := by linarith
    have harg1 := div_pos hN1 hA1
    have harg2 := div_pos hN2 hA2
    refine ⟨_, _,
      time_to_target_analytic_eq target x0 d r1 Tmax (ne_of_gt hr1)
        (ne_of_gt hA1) harg1,
      time_to_target_analytic_eq target x0 d r2 Tmax (ne_of_gt hr2)
        (ne_of_gt hA2) harg2, ?_⟩
    set T1 := Real.log ((target + 12 * d / r1) / (x0 + 12 * d / r1)) / r1
      with hT1def
    set T2 := Real.log ((target + 12 * d / r2) / (x0 + 12 * d / r2)) / r2
      with hT2def
    have harggt1 : 1 < (target + 12 * d / r1) / (x0 + 12 * d / r1) :=
      (one_lt_div hA1).mpr (by linarith)
    have hT1pos : 0 < T1 := div_pos (Real.log_pos harggt1) hr1
    have hrt1 : depPure x0 d r1 T1 = target :=
      depPure_roundtrip target x0 d r1 (ne_of_gt hr1) harg1
    have hrt2 : depPure x0 d r2 T2 = target :=
      depPure_roundtrip target x0 d r2 (ne_of_gt hr2) harg2
    have hstep : depPure x0 d r1 T1 < depPure x0 d r2 T1 :=
      depPure_rate_lt x0 d r1 r2 T1 hx0 hr1 hr12 hA1 hT1pos
    by_contra hcon
    push_neg at hcon
    have hmono : depPure x0 d r2 T1 ≤ depPure x0 d r2 T2 := by
      rcases eq_or_lt_of_le hcon with heq | hlt
      · rw [heq]
      · exact le_of_lt (depPure_time_lt x0 d r2 T1 T2 hA2 hr2 hlt)
    rw [hrt2] at hmono
    rw [hrt1] at hstep
    linarith

/-- Witness for the amended C7 at target 2, x0 1: deposits 0 versus 1 at
rate 1, and rates 1 versus 2 at deposit 0. -/
theorem time_to_target_analytic_monotone_witness :
    (∃ T1 T2 : ℝ,
      time_to_target 2 1 0 1 0 1000 = .ok (.finite T1) ∧
      time_to_target 2 1 1 1 0 1000 = .ok (.finite T2) ∧ T2 < T1) ∧
    (∃ T1 T2 : ℝ,
      time_to_target 2 1 0 1 0 1000 = .ok (.finite T1) ∧
      time_to_target 2 1 0 2 0 1000 = .ok (.finite T2) ∧ T2 < T1) := by
  have h := time_to_target_analytic_monotone_amended 2 1 0 0 1 1 1 2 1000
    (by norm_num)
  exact ⟨h.1 (by norm_num) (by norm_num) (by norm_num) (by norm_num),
    h.2 (by norm_num) (by norm_num) (by norm_num) (by norm_num)⟩

/-- Witness for C9 at initial sum 1, the single age [62], no salary
segments, death age 62 for the zero divisor and 60 for the negative
payment. -/
theorem pension_payment_nonpositive_divisor_witness :
    monthsFactorOf 60 62 = 12 * (60 - ((62 : ℤ) : ℝ)) ∧
    pension_payment 1 [62] (.list []) ((62 : ℤ) : ℝ) 6 6.5 6 1.5 0.01 4 =
      .error .divisionUndefined ∧
    ∃ p : ℝ, pension_payment 1 [62] (.list []) 60 6 6.5 6 1.5 0.01 4 =
      .ok p ∧ p < 0 :=
  pension_payment_nonpositive_divisor 1 60 6 6.5 6 1.5 0.01 4 1 [62] []
    62 (by simp) (by norm_num) rfl (by norm_num) (by norm_num)
    (by norm_num)
